import Mathlib

/-!
Shallow embedding of the core of the Mineral voxel-game client
(github.com/benanders/Mineral), written to check the natural-language
specification of the repository against its Go source.

Modelling conventions:
* Go `float32` arithmetic is modelled over `ℚ` (exact arithmetic).  Where a
  float-specific effect is essential to a claim it is modelled explicitly:
  the conversion of an integer to `float32` is modelled by `roundF32`
  (round-to-nearest-even at 24 significant bits), and `math.Nextafter32`
  is modelled by an explicit one-ULP nudge parameter `ulp ≥ 0`.
* Go machine integers (`int`) are modelled by `ℤ`; the program never comes
  close to 64-bit overflow on the quantities involved.
* The chunk map `map[chunkPos]*Chunk` is modelled as a function
  `ℤ × ℤ → Option Chunk`; the slice of in-flight loading channels is
  modelled as the list of spawned tasks.
* Flat block arrays (`blockData`, length ChunkWidth*ChunkHeight*ChunkDepth)
  are modelled as functions `ℕ → Block` indexed by the same flat index
  `y*ChunkWidth*ChunkDepth + z*ChunkWidth + x` the source uses.
-/

namespace Mineral

/-! ### util/util.go — AABB -/

/-- A 3-component vector, standing for `mgl32.Vec3` with exact coordinates. -/
structure Vec3 where
  x : ℚ
  y : ℚ
  z : ℚ
deriving Repr, DecidableEq

/-- Componentwise vector addition (`mgl32.Vec3.Add`). -/
def Vec3.add (a b : Vec3) : Vec3 := ⟨a.x + b.x, a.y + b.y, a.z + b.z⟩

/-- Axis aligned bounding box, as in `util/util.go`: a center point and a
full extent per axis. -/
structure AABB where
  center : Vec3
  size : Vec3
deriving Repr, DecidableEq

/-- `AABB.MinX`: minimum x bound, center minus half the size. -/
def AABB.MinX (a : AABB) : ℚ := a.center.x - a.size.x / 2

/-- `AABB.MaxX`: maximum x bound. -/
def AABB.MaxX (a : AABB) : ℚ := a.center.x + a.size.x / 2

/-- `AABB.MinY`: minimum y bound. -/
def AABB.MinY (a : AABB) : ℚ := a.center.y - a.size.y / 2

/-- `AABB.MaxY`: maximum y bound. -/
def AABB.MaxY (a : AABB) : ℚ := a.center.y + a.size.y / 2

/-- `AABB.MinZ`: minimum z bound. -/
def AABB.MinZ (a : AABB) : ℚ := a.center.z - a.size.z / 2

/-- `AABB.MaxZ`: maximum z bound. -/
def AABB.MaxZ (a : AABB) : ℚ := a.center.z + a.size.z / 2

/-- `AABB.Offset`: move the box's center by a delta. -/
def AABB.Offset (a : AABB) (delta : Vec3) : AABB :=
  { a with center := a.center.add delta }

/-- `AABB.Intersects`: the strict separating-axis overlap test from
`util/util.go`. -/
def AABB.Intersects (a b : AABB) : Bool :=
  decide (a.MinX < b.MaxX) && decide (a.MaxX > b.MinX) &&
  decide (a.MinY < b.MaxY) && decide (a.MaxY > b.MinY) &&
  decide (a.MinZ < b.MaxZ) && decide (a.MaxZ > b.MinZ)

/-- `AABB.IntersectionX`: the signed overlap between two boxes along x.
`math.Nextafter32` toward `+∞` (resp. `-∞`) is modelled by adding
(resp. subtracting) an explicit ULP increment `ulp ≥ 0`. -/
def AABB.IntersectionX (a b : AABB) (ulp : ℚ) : ℚ :=
  if a.MaxX - b.MinX < b.MaxX - a.MinX then a.MaxX - b.MinX + ulp
  else a.MinX - b.MaxX - ulp

/-- `AABB.IntersectionY`: signed overlap along y, with the same ULP nudge. -/
def AABB.IntersectionY (a b : AABB) (ulp : ℚ) : ℚ :=
  if a.MaxY - b.MinY < b.MaxY - a.MinY then a.MaxY - b.MinY + ulp
  else a.MinY - b.MaxY - ulp

/-- `AABB.IntersectionZ`: signed overlap along z, with the same ULP nudge. -/
def AABB.IntersectionZ (a b : AABB) (ulp : ℚ) : ℚ :=
  if a.MaxZ - b.MinZ < b.MaxZ - a.MinZ then a.MaxZ - b.MinZ + ulp
  else a.MinZ - b.MaxZ - ulp

/-- `util.Clamp`: restrict a value between a minimum and a maximum. -/
def Clamp (value lo hi : ℚ) : ℚ :=
  if value < lo then lo
  else if value > hi then hi
  else value

/-! ### entity/entity.go — collision resolution -/

/-- The axis along which a collision is resolved (`collisionAxis`). -/
inductive CollisionAxis where
  | axisX
  | axisY
  | axisZ
deriving Repr, DecidableEq

/-- `Entity.resolveCollision`: if the entity box intersects `other`, push it
out along the given axis by the negated (ULP-nudged) overlap. The entity
state relevant here is just its AABB, so the function maps box to box. -/
def resolveCollision (e other : AABB) (axis : CollisionAxis) (ulp : ℚ) : AABB :=
  if !(e.Intersects other) then e
  else
    let offset : Vec3 :=
      match axis with
      | .axisX => ⟨-(e.IntersectionX other ulp), 0, 0⟩
      | .axisY => ⟨0, -(e.IntersectionY other ulp), 0⟩
      | .axisZ => ⟨0, 0, -(e.IntersectionZ other ulp)⟩
    e.Offset offset

/-! ### entity/entity.go — look direction -/

/-- The `float32` value of the literal `0.0001` used as the pitch-clamp
epsilon in `Entity.Look` (exact rational value of the rounded float). -/
def lookEpsilon : ℚ := 13743895 / 137438953472

/-- The `float32` value of `math.Pi / 2.0` used in the pitch clamp
(exact rational value of the rounded float). -/
def piHalf32 : ℚ := 13176795 / 8388608

/-- Lower pitch clamp bound `-math.Pi/2.0 + epsilon` from `Entity.Look`. -/
def pitchLo : ℚ := -piHalf32 + lookEpsilon

/-- Upper pitch clamp bound `math.Pi/2.0 - epsilon` from `Entity.Look`. -/
def pitchHi : ℚ := piHalf32 - lookEpsilon

/-- `Entity.Look`: scale the delta by the look speed, add it to the current
rotation, and clamp the vertical component. The rotation pair is
`(yaw, pitch)` — `Rotation.X()` and `Rotation.Y()` in the source. -/
def Look (lookSpeed : ℚ) (rot delta : ℚ × ℚ) : ℚ × ℚ :=
  let x := rot.1 + delta.1 * lookSpeed
  let y := rot.2 + delta.2 * lookSpeed
  (x, Clamp y pitchLo pitchHi)

/-! ### world/world.go — chunk-space conversion -/

/-- `ChunkWidth` from `world/chunk.go`. -/
def ChunkWidth : ℤ := 16

/-- `ChunkHeight` from `world/chunk.go`. -/
def ChunkHeight : ℤ := 256

/-- `ChunkDepth` from `world/chunk.go`. -/
def ChunkDepth : ℤ := 16

/-- The number of low bits dropped when rounding `m` to 24 significant
bits: the count of exponents `k` with `2 ^ (24 + k) ≤ m`, which for
`2 ^ (23 + s) ≤ m < 2 ^ (24 + s)` is exactly `s` (for every value in the
64-bit integer range). -/
def f32shift (m : ℕ) : ℕ :=
  ((List.range 64).filter fun k => 2 ^ (24 + k) ≤ m).length

/-- Round a natural number to 24 significant bits, round-to-nearest,
ties-to-even: the mantissa rounding step of converting an integer to
`float32`. -/
def roundMantissa24 (m : ℕ) : ℕ :=
  let s := f32shift m
  if s = 0 then m
  else
    let q := m / 2 ^ s
    let r := m % 2 ^ s
    let q1 :=
      if 2 * r < 2 ^ s then q
      else if 2 * r > 2 ^ s then q + 1
      else if q % 2 = 0 then q else q + 1
    q1 * 2 ^ s

/-- The exact integer value of `float32(n)` for an integer `n` (Go's
conversion of `int` to `float32`, round-to-nearest-even). All integers
reachable here are far below the float32 exponent limit. -/
def roundF32 (n : ℤ) : ℤ :=
  if n < 0 then -(roundMantissa24 n.natAbs : ℤ) else (roundMantissa24 n.natAbs : ℤ)

/-- `ToChunkSpace` from `world/world.go`: the chunk coordinate is
`int(math32.Floor(float32(wx) / float32(ChunkWidth)))` — division of a
`float32` by 16 is exact scaling, so the result is the floor of
`roundF32 wx / 16`, i.e. flooring division of `roundF32 wx` by 16 — and
the local coordinate is Go's truncating `%` fixed up to be non-negative. -/
def ToChunkSpace (wx wy wz : ℤ) : ℤ × ℤ × ℤ × ℤ × ℤ :=
  let p := Int.fdiv (roundF32 wx) ChunkWidth
  let q := Int.fdiv (roundF32 wz) ChunkDepth
  let x0 := Int.tmod wx ChunkWidth
  let x := if x0 < 0 then x0 + ChunkWidth else x0
  let y := wy
  let z0 := Int.tmod wz ChunkDepth
  let z := if z0 < 0 then z0 + ChunkDepth else z0
  (p, q, x, y, z)

/-! ### world/chunk.go, world/block.go — block storage -/

/-- `Block`: the integer ID of a block type. -/
abbrev Block := ℕ

/-- `blockAir`, block ID 0. -/
def blockAir : Block := 0

/-- `BlockData`: a chunk's flat block array of length
`ChunkWidth*ChunkHeight*ChunkDepth`, modelled as a function from the flat
index used by the source (`y*ChunkWidth*ChunkDepth + z*ChunkWidth + x`). -/
abbrev BlockData := ℕ → Block

/-- Whether a local block coordinate lies inside the chunk bounds — the
bounds check at the top of both `BlockData.At` and `blockData.at`. -/
def inChunkBounds (x y z : ℤ) : Bool :=
  !(decide (x < 0) || decide (x ≥ ChunkWidth) ||
    decide (y < 0) || decide (y ≥ ChunkHeight) ||
    decide (z < 0) || decide (z ≥ ChunkDepth))

/-- The flat array index `y*ChunkWidth*ChunkDepth + z*ChunkWidth + x`. -/
def flatIndex (x y z : ℤ) : ℕ :=
  (y * ChunkWidth * ChunkDepth + z * ChunkWidth + x).toNat

/-- `BlockData.At` from `world/chunk.go`: returns the block at the given
local coordinate, or `none` (a nil pointer) when the coordinate is outside
the chunk bounds. -/
def BlockData.At (b : BlockData) (x y z : ℤ) : Option Block :=
  if inChunkBounds x y z then some (b (flatIndex x y z)) else none

/-- `blockData.at` from `world/block.go`: returns the block at the given
local coordinate, or a pointer to a fresh air block when the coordinate is
outside the chunk bounds. -/
def blockDataAt (b : BlockData) (x y z : ℤ) : Block :=
  if inChunkBounds x y z then b (flatIndex x y z) else blockAir

/-! ### world/vertices.go — the mesher -/

/-- `FaceUV`: the base UV coordinate of a block texture in the atlas. -/
structure FaceUV where
  X : ℚ
  Y : ℚ
deriving Repr, DecidableEq

/-- `FaceUV.Size`: the size of one block texture relative to the atlas
(`16/256` in each direction). -/
def FaceUV.Size : ℚ × ℚ := (16 / 256, 16 / 256)

/-- `BlockInfo`: the per-block-type properties the mesher reads. -/
structure BlockInfo where
  Visible : Bool
  Transparent : Bool
  UV : FaceUV
deriving Repr, DecidableEq

/-- `BlocksInfo`: the block catalog, an indexed lookup from block ID to its
properties (`(*info)[b]` in the source). -/
abbrev BlocksInfo := Block → BlockInfo

/-- `blockFace`: one of the 6 faces of a block. -/
inductive blockFace where
  | FaceLeft
  | FaceRight
  | FaceTop
  | FaceBottom
  | FaceFront
  | FaceBack
deriving Repr, DecidableEq

/-- The list `FaceLeft..FaceBack` that the mesher's face loop ranges over. -/
def allFaces : List blockFace :=
  [.FaceLeft, .FaceRight, .FaceTop, .FaceBottom, .FaceFront, .FaceBack]

/-- `blockFace.normal`: the outward normal of each face. -/
def blockFace.normal : blockFace → ℤ × ℤ × ℤ
  | .FaceLeft => (-1, 0, 0)
  | .FaceRight => (1, 0, 0)
  | .FaceTop => (0, 1, 0)
  | .FaceBottom => (0, -1, 0)
  | .FaceFront => (0, 0, 1)
  | .FaceBack => (0, 0, -1)

/-- `cubeVertices`: the 8 corners of a unit cube. -/
def cubeVertices : List (ℚ × ℚ × ℚ) :=
  [(0, 0, 1), (1, 0, 1), (1, 1, 1), (0, 1, 1),
   (0, 0, 0), (1, 0, 0), (1, 1, 0), (0, 1, 0)]

/-- `faceIndices`: the 6 corner indices of the two triangles of each face. -/
def blockFace.faceIndices : blockFace → List ℕ
  | .FaceLeft => [7, 4, 0, 0, 3, 7]
  | .FaceRight => [2, 1, 5, 5, 6, 2]
  | .FaceTop => [6, 7, 3, 3, 2, 6]
  | .FaceBottom => [0, 4, 5, 5, 1, 0]
  | .FaceFront => [3, 0, 1, 1, 2, 3]
  | .FaceBack => [6, 5, 4, 4, 7, 6]

/-- `faceUVs`: the per-vertex UV offsets, shared by all faces. -/
def faceUVs : List (ℚ × ℚ) :=
  [(0, 0), (0, 1), (1, 1), (1, 1), (1, 0), (0, 0)]

/-- `genVerticesForFace`: the 6 vertices (position, normal, UV — 8 floats
per vertex) of one visible face of a block, as appended to the vertex
list by the source. -/
def genVerticesForFace (info : BlocksInfo) (block : Block)
    (x y z : ℤ) (face : blockFace) : List ℚ :=
  (List.range 6).flatMap fun vertex =>
    let position := (cubeVertices.getD (face.faceIndices.getD vertex 0) (0, 0, 0))
    let n := face.normal
    let uv := (info block).UV
    let wh := FaceUV.Size
    let fuv := faceUVs.getD vertex (0, 0)
    [(x : ℚ) + position.1, (y : ℚ) + position.2.1, (z : ℚ) + position.2.2,
     (n.1 : ℚ), (n.2.1 : ℚ), (n.2.2 : ℚ),
     uv.X + wh.1 * fuv.1, uv.Y + wh.2 * fuv.2]

/-- `genVerticesForBlock`: the vertex data the mesher appends for the block
at one local coordinate — nothing for invisible blocks, and for each face
the face's vertices exactly when the neighbouring block is absent (nil,
outside the chunk) or transparent. -/
def genVerticesForBlock (blocks : BlockData) (info : BlocksInfo)
    (x y z : ℤ) : List ℚ :=
  match blocks.At x y z with
  | none => []
  | some current =>
    if !(info current).Visible then []
    else
      allFaces.flatMap fun face =>
        let n := face.normal
        match blocks.At (x + n.1) (y + n.2.1) (z + n.2.2) with
        | none => genVerticesForFace info current x y z face
        | some neighbour =>
          if (info neighbour).Transparent then
            genVerticesForFace info current x y z face
          else []

/-- Written from the specification's words, for comparison with
`genVerticesForBlock`: for each of the 6 faces, emit the face's 6 vertices
iff the block at the position is visible AND the neighbouring block in the
face's direction is transparent, a neighbour outside the grid bounds
counting as transparent. -/
def genVerticesForBlockSpec (blocks : BlockData) (info : BlocksInfo)
    (x y z : ℤ) : List ℚ :=
  allFaces.flatMap fun face =>
    let n := face.normal
    let bx := x + n.1
    let by' := y + n.2.1
    let bz := z + n.2.2
    let current := blocks (flatIndex x y z)
    if (info current).Visible &&
        (!inChunkBounds bx by' bz ||
          (info (blocks (flatIndex bx by' bz))).Transparent) then
      genVerticesForFace info current x y z face
    else []

/-! ### world/world.go — the chunk manager state machine

GPU calls (`chunk.destroy`, `uploadChunk`'s buffer traffic) have no
observable effect on the manager's state beyond the fields modelled here;
the goroutine spawned by `genChunk`/`regenChunk` is modelled by recording
the spawned task in the `loading` list, and the delivery of its result is
modelled by passing the result value to `handleFinishedTask` explicitly. -/

/-- `deleteRadiusFactor` from `world/world.go`. -/
def deleteRadiusFactor : ℤ := 2

/-- `Chunk`: the manager-level chunk state — cached block data (nil until
the load result arrives) and the number of uploaded vertices. -/
structure Chunk where
  Blocks : Option BlockData
  numVertices : ℤ

/-- A task spawned on the `loading` list: either a full block+vertex
generation (`genChunk`) or a vertex-only regeneration (`regenChunk`). -/
inductive GenTask where
  | blockVertexGen (p q : ℤ)
  | vertexGen (p q : ℤ)

/-- `World`: render radius, the loaded-chunk map, and the list of loading
channels (one per spawned task). -/
structure World where
  RenderRadius : ℤ
  chunks : ℤ × ℤ → Option Chunk
  loading : List GenTask

/-- `World.FindChunk`: the chunk at the given coordinates if loaded,
otherwise `none` (nil). -/
def World.FindChunk (w : World) (p q : ℤ) : Option Chunk :=
  w.chunks (p, q)

/-- A result delivered on a loading channel: `blockVertexGenResult` from a
`genChunk` task, or `vertexGenResult` from a `regenChunk` task. -/
inductive GenResult where
  | blockVertexGenResult (p q : ℤ) (blocks : BlockData) (vertices : List ℚ)
  | vertexGenResult (p q : ℤ) (vertices : List ℚ)

/-- `World.uploadChunk`: sets the chunk's vertex count from the uploaded
vertex data (`len(vertices) / valuesPerVertex`); the GPU upload itself has
no further manager-visible effect. -/
def World.uploadChunk (c : Chunk) (vertices : List ℚ) : Chunk :=
  { c with numVertices := (vertices.length : ℤ) / 8 }

/-- `World.genChunk`: no-op if `FindChunk` returns a chunk; otherwise
spawn a block+vertex generation task (append its channel to `loading`). -/
def World.genChunk (w : World) (p q : ℤ) : World :=
  match w.FindChunk p q with
  | some _ => w
  | none => { w with loading := w.loading ++ [GenTask.blockVertexGen p q] }

/-- `World.regenChunk`: no-op if the chunk is absent or its block data is
nil; otherwise spawn a vertex-only regeneration task over a copy of the
block data. -/
def World.regenChunk (w : World) (p q : ℤ) : World :=
  match w.FindChunk p q with
  | none => w
  | some c =>
    match c.Blocks with
    | none => w
    | some _ => { w with loading := w.loading ++ [GenTask.vertexGen p q] }

/-- `World.handleFinishedTask`: a `blockVertexGenResult` always creates a
fresh chunk at its coordinate and stores it in the map; a
`vertexGenResult` is dropped when the chunk was unloaded in the meantime,
and otherwise re-uploads the chunk's vertex data. -/
def World.handleFinishedTask (w : World) (result : GenResult) : World :=
  match result with
  | .blockVertexGenResult p q blocks vertices =>
    let chunk := World.uploadChunk { Blocks := some blocks, numVertices := 0 } vertices
    { w with chunks := fun pos => if pos = (p, q) then some chunk else w.chunks pos }
  | .vertexGenResult p q vertices =>
    match w.FindChunk p q with
    | none => w
    | some chunk =>
      { w with chunks := fun pos =>
          if pos = (p, q) then some (World.uploadChunk chunk vertices)
          else w.chunks pos }

/-- The destroy-and-delete step of `GenChunksAround`'s eviction loop,
applied to one coordinate: the chunk's GPU resources are destroyed and its
entry removed from the map. -/
def World.evictChunk (w : World) (p q : ℤ) : World :=
  { w with chunks := fun pos => if pos = (p, q) then none else w.chunks pos }

/-- The list of integers `a, a+1, ..., b` (a Go `for i := a; i <= b; i++`
loop range). -/
def intRangeList (a b : ℤ) : List ℤ :=
  (List.range (b - a + 1).toNat).map fun i => a + (i : ℤ)

/-- `World.GenChunksAround`: first delete every loaded chunk whose squared
chunk-distance from the center exceeds `deleteRadius`
(`RenderRadius + deleteRadiusFactor` — note the source compares the
squared distance against the radius itself, not its square), then request
generation for every coordinate within the render radius. -/
def World.GenChunksAround (w : World) (p q : ℤ) : World :=
  let deleteRadius := w.RenderRadius + deleteRadiusFactor
  let w1 : World :=
    { w with chunks := fun pos =>
        match w.chunks pos with
        | none => none
        | some c =>
          let dp := pos.1 - p
          let dq := pos.2 - q
          if dp * dp + dq * dq > deleteRadius then none else some c }
  (intRangeList (-w.RenderRadius) w.RenderRadius).foldl (fun wa dp =>
    (intRangeList (-w.RenderRadius) w.RenderRadius).foldl (fun wb dq =>
      if dp * dp + dq * dq ≤ w.RenderRadius * w.RenderRadius then
        wb.genChunk (p + dp) (q + dq)
      else wb) wa) w1

/-! ### entity/entity.go — movement and the per-tick collision sweep -/

/-- The `float32` value of the literal `0.00001` used as the movement
epsilon in `Entity.ApplyMovementAndResolveCollisions` (exact rational
value of the rounded float). -/
def moveEpsilon : ℚ := 2748779 / 274877906944

/-- `Entity`: the state touched by the per-tick movement step — the
position/size AABB and the accumulated world-space movement delta. -/
structure Entity where
  aabb : AABB
  moveDelta : Vec3

/-- `AABB.IsOverlapping`: the overlap test used by the collision sweep;
its body is identical to `AABB.Intersects`. -/
def AABB.IsOverlapping (a b : AABB) : Bool := a.Intersects b

/-- `AABB.Overlap`: the per-axis signed overlap between two colliding
boxes — along each axis the smaller-magnitude of the two penetration
candidates, with no ULP nudge. -/
def AABB.Overlap (a b : AABB) : Vec3 :=
  ⟨if a.MaxX - b.MinX < b.MaxX - a.MinX then a.MaxX - b.MinX else a.MinX - b.MaxX,
   if a.MaxY - b.MinY < b.MaxY - a.MinY then a.MaxY - b.MinY else a.MinY - b.MaxY,
   if a.MaxZ - b.MinZ < b.MaxZ - a.MinZ then a.MaxZ - b.MinZ else a.MinZ - b.MaxZ⟩

/-- `Entity.resolveCollision` (axis-vector form used by the per-tick
sweep): if the entity overlaps `other`, translate it by the negated
overlap masked to the current axis vector. -/
def resolveCollisionVec (e other : AABB) (axis : Vec3) : AABB :=
  if !(e.IsOverlapping other) then e
  else
    let depth := e.Overlap other
    e.Offset ⟨-depth.x * axis.x, -depth.y * axis.y, -depth.z * axis.z⟩

/-- `blockType.isCollidable`: lookup table — air is not collidable, the
solid block types are. Block IDs above the table's range do not occur. -/
def isCollidable (b : Block) : Bool :=
  [false, true, true, true].getD b false

/-- `blockType.AABB`: the unit-cube collision box of the block at chunk
`(p, q)`, local coordinate `(x, y, z)` — centered half a block above the
block's world-space corner. -/
def blockAABB (p q x y z : ℤ) : AABB :=
  { center := ⟨(p * ChunkWidth + x : ℤ) + 1/2, (y : ℚ) + 1/2,
               (q * ChunkDepth + z : ℤ) + 1/2⟩,
    size := ⟨1, 1, 1⟩ }

/-- `Entity.resolveBlockCollision`: find the chunk holding world block
`(x, y, z)` (via `world.Chunked`, the same computation as
`ToChunkSpace`); skip if the chunk or its block data is not loaded, or the
block is not collidable; otherwise resolve the collision with the block's
unit AABB along the given axis. -/
def resolveBlockCollision (w : World) (axis : Vec3) (e : Entity)
    (x y z : ℤ) : Entity :=
  let r := ToChunkSpace x y z
  let p := r.1
  let q := r.2.1
  let cx := r.2.2.1
  let cy := r.2.2.2.1
  let cz := r.2.2.2.2
  match w.FindChunk p q with
  | none => e
  | some chunk =>
    match chunk.Blocks with
    | none => e
    | some blocks =>
      let block := blockDataAt blocks cx cy cz
      if !(isCollidable block) then e
      else { e with aabb := resolveCollisionVec e.aabb (blockAABB p q cx cy cz) axis }

/-- `Entity.resolveBlockCollisions`: sweep every block cell whose unit
cube could overlap the entity's AABB (floors of the box bounds) and
resolve each collision along the given axis. -/
def resolveBlockCollisions (w : World) (axis : Vec3) (e : Entity) : Entity :=
  let ax := Int.floor e.aabb.MinX
  let bx := Int.floor e.aabb.MaxX
  let ay := Int.floor e.aabb.MinY
  let by' := Int.floor e.aabb.MaxY
  let az := Int.floor e.aabb.MinZ
  let bz := Int.floor e.aabb.MaxZ
  (intRangeList ax bx).foldl (fun e1 x =>
    (intRangeList ay by').foldl (fun e2 y =>
      (intRangeList az bz).foldl (fun e3 z =>
        resolveBlockCollision w axis e3 x y z) e2) e1) e

/-- `Entity.ApplyMovementAndResolveCollisions`: if every component of the
accumulated movement delta is below the epsilon in absolute value, return
immediately (no offset, no sweep, delta kept); otherwise offset and
resolve along each of the three axes in order, then reset the delta. -/
def ApplyMovementAndResolveCollisions (w : World) (e : Entity) : Entity :=
  if |e.moveDelta.x| < moveEpsilon ∧ |e.moveDelta.y| < moveEpsilon ∧
      |e.moveDelta.z| < moveEpsilon then e
  else
    let axes : List Vec3 := [⟨1, 0, 0⟩, ⟨0, 1, 0⟩, ⟨0, 0, 1⟩]
    let ef := axes.foldl (fun ec axis =>
      let delta : Vec3 :=
        ⟨ec.moveDelta.x * axis.x, ec.moveDelta.y * axis.y, ec.moveDelta.z * axis.z⟩
      let moved := { ec with aabb := ec.aabb.Offset delta }
      resolveBlockCollisions w axis moved) e
    { ef with moveDelta := ⟨0, 0, 0⟩ }

/-! ## Theorems -/

/-- Unfolding lemma for the boolean intersection test. -/
lemma AABB.intersects_eq_true_iff (a b : AABB) :
    a.Intersects b = true ↔
      (a.MinX < b.MaxX ∧ a.MaxX > b.MinX ∧ a.MinY < b.MaxY ∧
       a.MaxY > b.MinY ∧ a.MinZ < b.MaxZ ∧ a.MaxZ > b.MinZ) := by
  simp [AABB.Intersects, and_assoc]

/-- C6: `AABB.Intersects` is a strict separating-axis test — for boxes of
positive extent it returns true exactly when the boxes' intervals overlap
with strict inequality on all three axes, so boxes sharing only a boundary
plane report false and boxes overlapping by any positive amount on every
axis report true. -/
theorem intersects_iff_strict_overlap (a b : AABB)
    (ha : 0 < a.size.x ∧ 0 < a.size.y ∧ 0 < a.size.z)
    (hb : 0 < b.size.x ∧ 0 < b.size.y ∧ 0 < b.size.z) :
    a.Intersects b = true ↔
      (max a.MinX b.MinX < min a.MaxX b.MaxX ∧
       max a.MinY b.MinY < min a.MaxY b.MaxY ∧
       max a.MinZ b.MinZ < min a.MaxZ b.MaxZ) := by
  obtain ⟨hax, hay, haz⟩ := ha
  obtain ⟨hbx, hby, hbz⟩ := hb
  have h1 : a.MinX < a.MaxX := by
    simp only [AABB.MinX, AABB.MaxX]; linarith
  have h2 : b.MinX < b.MaxX := by
    simp only [AABB.MinX, AABB.MaxX]; linarith
  have h3 : a.MinY < a.MaxY := by
    simp only [AABB.MinY, AABB.MaxY]; linarith
  have h4 : b.MinY < b.MaxY := by
    simp only [AABB.MinY, AABB.MaxY]; linarith
  have h5 : a.MinZ < a.MaxZ := by
    simp only [AABB.MinZ, AABB.MaxZ]; linarith
  have h6 : b.MinZ < b.MaxZ := by
    simp only [AABB.MinZ, AABB.MaxZ]; linarith
  rw [AABB.intersects_eq_true_iff]
  simp only [max_lt_iff, lt_min_iff]
  constructor
  · rintro ⟨g1, g2, g3, g4, g5, g6⟩
    refine ⟨⟨⟨?_, ?_⟩, ?_, ?_⟩, ⟨⟨?_, ?_⟩, ?_, ?_⟩, ⟨⟨?_, ?_⟩, ?_, ?_⟩⟩ <;> linarith
  · rintro ⟨⟨⟨g1a, g1b⟩, g2a, g2b⟩, ⟨⟨g3a, g3b⟩, g4a, g4b⟩, ⟨⟨g5a, g5b⟩, g6a, g6b⟩⟩
    refine ⟨?_, ?_, ?_, ?_, ?_, ?_⟩ <;> linarith

/-- Witness for C6 at concrete boxes: a unit box at the origin against a
unit box one unit to its right — touching along a single plane, and
reported as not intersecting; the hypotheses on the extents hold. -/
theorem intersects_iff_strict_overlap_witness :
    ((0:ℚ) < 1 ∧ (0:ℚ) < 1 ∧ (0:ℚ) < 1) ∧
      ((AABB.mk ⟨0, 0, 0⟩ ⟨1, 1, 1⟩).Intersects (AABB.mk ⟨1, 0, 0⟩ ⟨1, 1, 1⟩) = true ↔
        (max (AABB.mk ⟨0, 0, 0⟩ ⟨1, 1, 1⟩).MinX (AABB.mk ⟨1, 0, 0⟩ ⟨1, 1, 1⟩).MinX <
           min (AABB.mk ⟨0, 0, 0⟩ ⟨1, 1, 1⟩).MaxX (AABB.mk ⟨1, 0, 0⟩ ⟨1, 1, 1⟩).MaxX ∧
         max (AABB.mk ⟨0, 0, 0⟩ ⟨1, 1, 1⟩).MinY (AABB.mk ⟨1, 0, 0⟩ ⟨1, 1, 1⟩).MinY <
           min (AABB.mk ⟨0, 0, 0⟩ ⟨1, 1, 1⟩).MaxY (AABB.mk ⟨1, 0, 0⟩ ⟨1, 1, 1⟩).MaxY ∧
         max (AABB.mk ⟨0, 0, 0⟩ ⟨1, 1, 1⟩).MinZ (AABB.mk ⟨1, 0, 0⟩ ⟨1, 1, 1⟩).MinZ <
           min (AABB.mk ⟨0, 0, 0⟩ ⟨1, 1, 1⟩).MaxZ (AABB.mk ⟨1, 0, 0⟩ ⟨1, 1, 1⟩).MaxZ)) :=
  ⟨⟨by norm_num, by norm_num, by norm_num⟩,
    intersects_iff_strict_overlap _ _
      ⟨by norm_num, by norm_num, by norm_num⟩
      ⟨by norm_num, by norm_num, by norm_num⟩⟩

/-- C7: single-axis penetration resolution is idempotent — after
`resolveCollision` translates the moving box by the negated, ULP-nudged
per-axis overlap along the resolution axis, `Intersects` on the result
returns false, for any non-negative ULP increment. -/
theorem resolveCollision_separates (e other : AABB) (axis : CollisionAxis)
    (ulp : ℚ) (h : 0 ≤ ulp) :
    (resolveCollision e other axis ulp).Intersects other = false := by
  unfold resolveCollision
  by_cases hI : e.Intersects other
  · simp only [hI, Bool.not_true, Bool.false_eq_true, if_false]
    cases axis
    · simp only [AABB.IntersectionX]
      split
      · rename_i hlt
        rw [Bool.eq_false_iff, Ne, AABB.intersects_eq_true_iff]
        rintro ⟨-, g2, -⟩
        simp only [AABB.MaxX, AABB.MinX, AABB.Offset, Vec3.add] at g2 hlt
        linarith
      · rename_i hge
        rw [Bool.eq_false_iff, Ne, AABB.intersects_eq_true_iff]
        rintro ⟨g1, -⟩
        simp only [AABB.MaxX, AABB.MinX, AABB.Offset, Vec3.add] at g1 hge
        linarith
    · simp only [AABB.IntersectionY]
      split
      · rename_i hlt
        rw [Bool.eq_false_iff, Ne, AABB.intersects_eq_true_iff]
        rintro ⟨-, -, -, g4, -⟩
        simp only [AABB.MaxY, AABB.MinY, AABB.Offset, Vec3.add] at g4 hlt
        linarith
      · rename_i hge
        rw [Bool.eq_false_iff, Ne, AABB.intersects_eq_true_iff]
        rintro ⟨-, -, g3, -⟩
        simp only [AABB.MaxY, AABB.MinY, AABB.Offset, Vec3.add] at g3 hge
        linarith
    · simp only [AABB.IntersectionZ]
      split
      · rename_i hlt
        rw [Bool.eq_false_iff, Ne, AABB.intersects_eq_true_iff]
        rintro ⟨-, -, -, -, -, g6⟩
        simp only [AABB.MaxZ, AABB.MinZ, AABB.Offset, Vec3.add] at g6 hlt
        linarith
      · rename_i hge
        rw [Bool.eq_false_iff, Ne, AABB.intersects_eq_true_iff]
        rintro ⟨-, -, -, -, g5, -⟩
        simp only [AABB.MaxZ, AABB.MinZ, AABB.Offset, Vec3.add] at g5 hge
        linarith
  · simp only [Bool.not_eq_true] at hI
    simp [hI]

/-- Witness for C7 at concrete input: two overlapping unit boxes resolved
along the x axis with a one-ULP-like nudge of `1/2^23`. -/
theorem resolveCollision_separates_witness :
    (0:ℚ) ≤ 1/8388608 ∧
      (resolveCollision (AABB.mk ⟨0, 0, 0⟩ ⟨1, 1, 1⟩)
          (AABB.mk ⟨1/2, 0, 0⟩ ⟨1, 1, 1⟩) CollisionAxis.axisX
          (1/8388608)).Intersects (AABB.mk ⟨1/2, 0, 0⟩ ⟨1, 1, 1⟩) = false :=
  ⟨by norm_num,
    resolveCollision_separates _ _ CollisionAxis.axisX (1/8388608) (by norm_num)⟩

/-- C1 (failing input): with render radius 4 and center chunk (0, 0), the
loaded chunk at (3, 0) satisfies `(3-0)^2 + (0-0)^2 = 9 ≤ 36 = (4+2)^2`,
so by the claim it must be kept — yet `GenChunksAround` destroys and
removes it, because the source compares the squared distance 9 against the
unsquared delete radius `4 + 2 = 6`. -/
theorem genChunksAround_evicts_inside_delete_radius :
    (World.GenChunksAround
        ⟨4, fun pos => if pos = (3, 0) then some ⟨some fun _ => 0, 0⟩ else none, []⟩
        0 0).FindChunk 3 0 = none ∧
      ((3 : ℤ) - 0) ^ 2 + ((0 : ℤ) - 0) ^ 2 ≤ ((4 : ℤ) + deleteRadiusFactor) ^ 2 := by
  constructor
  · rfl
  · decide

/-- C2 (counterexample): on a world with no loaded chunks, calling
`genChunk 0 0` twice before any result is delivered spawns two generation
tasks (two loading channels) — the second call is not a no-op, because the
chunks map has no entry while a generation task is still in flight. -/
theorem genChunk_double_spawn :
    ((World.genChunk (World.genChunk ⟨4, fun _ => none, []⟩ 0 0) 0 0).loading.length = 2) :=
  rfl

/-- C2 (amended): `genChunk` is a no-op exactly when the coordinate is
present in the loaded-chunk map — i.e. when its generation result has
already been delivered; there is no in-flight dedup. -/
theorem genChunk_noop_iff_loaded (w : World) (p q : ℤ) :
    w.genChunk p q = w ↔ (w.FindChunk p q).isSome = true := by
  cases hf : w.FindChunk p q with
  | some c => simp [World.genChunk, hf]
  | none =>
    simp only [World.genChunk, hf, Option.isSome_none, Bool.false_eq_true, iff_false]
    intro hEq
    have hLen := congrArg (fun w' => w'.loading.length) hEq
    simp at hLen

/-- C3: after a remesh is requested for a loaded chunk, the chunk evicted,
and the stale `vertexGenResult` delivered, `FindChunk` still returns
absent; a `blockVertexGenResult` delivered after the same eviction is
still applied and creates a fresh chunk. -/
theorem staleRemeshDiscarded_loadApplied (w : World) (p q : ℤ) (c : Chunk)
    (bd : BlockData) (hc : w.FindChunk p q = some c) (hb : c.Blocks = some bd)
    (verts : List ℚ) (bd2 : BlockData) (verts2 : List ℚ) :
    (((w.regenChunk p q).evictChunk p q).handleFinishedTask
        (GenResult.vertexGenResult p q verts)).FindChunk p q = none ∧
      ((((w.regenChunk p q).evictChunk p q).handleFinishedTask
          (GenResult.blockVertexGenResult p q bd2 verts2)).FindChunk p q).isSome
        = true := by
  have hev : ((w.regenChunk p q).evictChunk p q).FindChunk p q = none := by
    simp [World.evictChunk, World.FindChunk]
  constructor
  · simp only [World.handleFinishedTask, hev]
  · simp [World.handleFinishedTask, World.FindChunk]

/-- A one-chunk world used as the concrete input of the C3 witness: the
chunk at (0, 0) is loaded with all-air block data. -/
def oneChunkWorld : World :=
  ⟨4, fun pos => if pos = (0, 0) then some ⟨some fun _ => 0, 0⟩ else none, []⟩

/-- Witness for C3: on `oneChunkWorld`, a remesh requested at (0, 0), the
chunk evicted, then both kinds of stale result delivered. -/
theorem staleRemeshDiscarded_loadApplied_witness :
    (oneChunkWorld.FindChunk 0 0 = some ⟨some fun _ => 0, 0⟩) ∧
      (((oneChunkWorld.regenChunk 0 0).evictChunk 0 0).handleFinishedTask
          (GenResult.vertexGenResult 0 0 [])).FindChunk 0 0 = none ∧
      ((((oneChunkWorld.regenChunk 0 0).evictChunk 0 0).handleFinishedTask
          (GenResult.blockVertexGenResult 0 0 (fun _ => 0) [])).FindChunk 0 0).isSome
        = true :=
  ⟨rfl,
    staleRemeshDiscarded_loadApplied oneChunkWorld 0 0 ⟨some fun _ => 0, 0⟩
      (fun _ => 0) rfl rfl [] (fun _ => 0) []⟩

/-- C9 (counterexample): querying the out-of-range local coordinate
`(-1, 0, 0)` of a grid that stores stone (ID 1) everywhere does not halt —
`blockData.at` returns a substitute air block and `BlockData.At` returns
nil. -/
theorem blockLookup_out_of_range_substitute :
    blockDataAt (fun _ => 1) (-1) 0 0 = blockAir ∧
      BlockData.At (fun _ => 1) (-1) 0 0 = none := ⟨rfl, rfl⟩

/-- C9 (amended): out-of-range local block coordinates are silently
tolerated by the grid indexing operations — `BlockData.At` returns nil and
`blockData.at` returns a pointer to a fresh air block; neither halts. -/
theorem blockLookup_out_of_range_behavior (b : BlockData) (x y z : ℤ)
    (h : inChunkBounds x y z = false) :
    BlockData.At b x y z = none ∧ blockDataAt b x y z = blockAir := by
  simp [BlockData.At, blockDataAt, h]

/-- Witness for C9 (amended) at the concrete out-of-range coordinate
`(-1, 0, 0)`. -/
theorem blockLookup_out_of_range_behavior_witness :
    inChunkBounds (-1) 0 0 = false ∧
      (BlockData.At (fun _ => 1) (-1) 0 0 = none ∧
        blockDataAt (fun _ => 1) (-1) 0 0 = blockAir) :=
  ⟨by decide, blockLookup_out_of_range_behavior (fun _ => 1) (-1) 0 0 (by decide)⟩

/-- C10: when every component of the accumulated movement delta is below
the epsilon in absolute value, `ApplyMovementAndResolveCollisions` returns
the entity unchanged — the AABB is not offset, no collision sweep runs,
and the accumulated delta is not reset, so sub-epsilon movement intent
persists into later ticks. -/
theorem applyMovement_subEpsilon_noop (w : World) (e : Entity)
    (hx : |e.moveDelta.x| < moveEpsilon) (hy : |e.moveDelta.y| < moveEpsilon)
    (hz : |e.moveDelta.z| < moveEpsilon) :
    ApplyMovementAndResolveCollisions w e = e := by
  unfold ApplyMovementAndResolveCollisions
  exact if_pos ⟨hx, hy, hz⟩

/-- Witness for C10: a stationary entity (zero delta) in an empty world is
left untouched. -/
theorem applyMovement_subEpsilon_noop_witness :
    |(Entity.mk (AABB.mk ⟨0, 0, 0⟩ ⟨1, 1, 1⟩) ⟨0, 0, 0⟩).moveDelta.x| < moveEpsilon ∧
      ApplyMovementAndResolveCollisions ⟨4, fun _ => none, []⟩
          (Entity.mk (AABB.mk ⟨0, 0, 0⟩ ⟨1, 1, 1⟩) ⟨0, 0, 0⟩)
        = Entity.mk (AABB.mk ⟨0, 0, 0⟩ ⟨1, 1, 1⟩) ⟨0, 0, 0⟩ :=
  ⟨by norm_num [moveEpsilon],
    applyMovement_subEpsilon_noop _ _ (by norm_num [moveEpsilon])
      (by norm_num [moveEpsilon]) (by norm_num [moveEpsilon])⟩

/-- Rounding to 24 significant bits is the identity up to `2 ^ 24`. -/
lemma roundMantissa24_of_le (m : ℕ) (h : m ≤ 2 ^ 24) : roundMantissa24 m = m := by
  rcases eq_or_lt_of_le h with heq | hlt
  · subst heq
    decide
  · have hs : f32shift m = 0 := by
      have hnone : ∀ k, ¬(2 ^ (24 + k) ≤ m) := by
        intro k hk
        have hmono : (2 : ℕ) ^ 24 ≤ 2 ^ (24 + k) :=
          Nat.pow_le_pow_right (by norm_num) (by omega)
        omega
      simp only [f32shift, List.length_eq_zero, List.filter_eq_nil_iff]
      intro k _
      simpa using hnone k
    simp [roundMantissa24, hs]

/-- `float32` conversion is exact on integers of magnitude at most `2 ^ 24`. -/
lemma roundF32_of_abs_le (n : ℤ) (h : |n| ≤ 2 ^ 24) : roundF32 n = n := by
  have h1 : n.natAbs ≤ 2 ^ 24 := by
    rw [Int.abs_eq_natAbs] at h
    exact_mod_cast h
  unfold roundF32
  rw [roundMantissa24_of_le _ h1]
  split <;> omega

/-- Go's truncating remainder by 16 lies strictly between -16 and 16. -/
lemma tmod16_bounds (n : ℤ) : -16 < Int.tmod n 16 ∧ Int.tmod n 16 < 16 := by
  refine ⟨?_, Int.tmod_lt_of_pos n (by norm_num)⟩
  have h4 : (-n).tmod 16 < 16 := Int.tmod_lt_of_pos (-n) (by norm_num)
  have h5 : (-n).tmod 16 = -n - 16 * ((-n).tdiv 16) := Int.tmod_def (-n) 16
  have h6 : (-n).tdiv 16 = -(n.tdiv 16) := Int.neg_tdiv n 16
  have h7 : Int.tmod n 16 + 16 * Int.tdiv n 16 = n := Int.tmod_add_tdiv n 16
  rw [h6] at h5
  omega

/-- C5 (counterexample): at `wx = 33554431 = 2^25 - 1` the conversion to a
`float32` rounds to `2^25`, so `ToChunkSpace` returns chunk `p = 2097152`
and local `x = 15`, and `p * 16 + x = 33554447 ≠ 33554431` — the
reconstruction fails for this integer world coordinate. -/
theorem toChunkSpace_reconstruction_fails :
    (ToChunkSpace 33554431 0 0).1 * ChunkWidth + (ToChunkSpace 33554431 0 0).2.2.1
      ≠ 33554431 := by decide

/-- C5 (amended): for world coordinates of magnitude at most `2 ^ 24`
(where `float32` conversion is exact), `ToChunkSpace` yields local
coordinates in `[0, 16)` and `p * 16 + x` (resp. `q * 16 + z`)
reconstructs `wx` (resp. `wz`) exactly, with `y` passed through. -/
theorem toChunkSpace_roundtrip (wx wy wz : ℤ)
    (hx : |wx| ≤ 2 ^ 24) (hz : |wz| ≤ 2 ^ 24) :
    0 ≤ (ToChunkSpace wx wy wz).2.2.1 ∧
      (ToChunkSpace wx wy wz).2.2.1 < ChunkWidth ∧
      (ToChunkSpace wx wy wz).1 * ChunkWidth + (ToChunkSpace wx wy wz).2.2.1 = wx ∧
      0 ≤ (ToChunkSpace wx wy wz).2.2.2.2 ∧
      (ToChunkSpace wx wy wz).2.2.2.2 < ChunkDepth ∧
      (ToChunkSpace wx wy wz).2.1 * ChunkDepth + (ToChunkSpace wx wy wz).2.2.2.2 = wz ∧
      (ToChunkSpace wx wy wz).2.2.2.1 = wy := by
  obtain ⟨hxl, hxr⟩ := tmod16_bounds wx
  obtain ⟨hzl, hzr⟩ := tmod16_bounds wz
  have hdx : Int.tmod wx 16 + 16 * Int.tdiv wx 16 = wx := Int.tmod_add_tdiv wx 16
  have hdz : Int.tmod wz 16 + 16 * Int.tdiv wz 16 = wz := Int.tmod_add_tdiv wz 16
  simp only [ToChunkSpace, ChunkWidth, ChunkDepth]
  rw [roundF32_of_abs_le wx hx, roundF32_of_abs_le wz hz,
    Int.fdiv_eq_ediv _ (by norm_num), Int.fdiv_eq_ediv _ (by norm_num)]
  refine ⟨?_, ?_, ?_, ?_, ?_, ?_, trivial⟩ <;> split <;> omega

/-- Witness for C5 at the spec's own example `wx = -1` (and `wz = -1`):
chunk `p = -1`, local `x = 15`, reconstruction exact. -/
theorem toChunkSpace_roundtrip_witness :
    (|(-1 : ℤ)| ≤ 2 ^ 24 ∧
      (0 ≤ (ToChunkSpace (-1) 0 (-1)).2.2.1 ∧
        (ToChunkSpace (-1) 0 (-1)).2.2.1 < ChunkWidth ∧
        (ToChunkSpace (-1) 0 (-1)).1 * ChunkWidth + (ToChunkSpace (-1) 0 (-1)).2.2.1 = -1 ∧
        0 ≤ (ToChunkSpace (-1) 0 (-1)).2.2.2.2 ∧
        (ToChunkSpace (-1) 0 (-1)).2.2.2.2 < ChunkDepth ∧
        (ToChunkSpace (-1) 0 (-1)).2.1 * ChunkDepth +
            (ToChunkSpace (-1) 0 (-1)).2.2.2.2 = -1 ∧
        (ToChunkSpace (-1) 0 (-1)).2.2.2.1 = 0)) ∧
      (ToChunkSpace (-1) 0 (-1)).1 = -1 ∧ (ToChunkSpace (-1) 0 (-1)).2.2.1 = 15 :=
  ⟨⟨by decide, toChunkSpace_roundtrip (-1) 0 (-1) (by decide) (by decide)⟩,
    by decide, by decide⟩

/-- `Clamp` lands in the interval whenever the bounds are ordered. -/
lemma clamp_mem (v lo hi : ℚ) (h : lo ≤ hi) :
    lo ≤ Clamp v lo hi ∧ Clamp v lo hi ≤ hi := by
  unfold Clamp
  split_ifs <;> constructor <;> linarith

/-- The pitch clamp bounds are ordered. -/
lemma pitchLo_le_pitchHi : pitchLo ≤ pitchHi := by
  norm_num [pitchLo, pitchHi, piHalf32, lookEpsilon]

/-- After any single `Look` call the pitch lies in the clamp interval. -/
lemma look_pitch_mem (speed : ℚ) (rot d : ℚ × ℚ) :
    pitchLo ≤ (Look speed rot d).2 ∧ (Look speed rot d).2 ≤ pitchHi := by
  simpa [Look] using clamp_mem (rot.2 + d.2 * speed) _ _ pitchLo_le_pitchHi

/-- Folding further `Look` calls keeps the pitch in the clamp interval. -/
lemma foldl_look_pitch_mem (speed : ℚ) (t : List (ℚ × ℚ)) (rot : ℚ × ℚ)
    (hrot : pitchLo ≤ rot.2 ∧ rot.2 ≤ pitchHi) :
    pitchLo ≤ (t.foldl (Look speed) rot).2 ∧
      (t.foldl (Look speed) rot).2 ≤ pitchHi := by
  induction t generalizing rot with
  | nil => simpa using hrot
  | cons d t ih => exact ih (Look speed rot d) (look_pitch_mem speed rot d)

/-- C8: after any non-empty sequence of `Look` calls with arbitrary deltas,
the pitch lies within `[-π/2+ε, π/2-ε]` for the fixed epsilon, and those
clamp bounds are strictly inside `(-π/2, π/2)`, so the pitch never reaches
`±π/2`. -/
theorem look_pitch_clamped (lookSpeed : ℚ) (rot : ℚ × ℚ)
    (ds : List (ℚ × ℚ)) (h : ds ≠ []) :
    (pitchLo ≤ (ds.foldl (Look lookSpeed) rot).2 ∧
      (ds.foldl (Look lookSpeed) rot).2 ≤ pitchHi) ∧
      -(Real.pi / 2) < (pitchLo : ℝ) ∧ (pitchHi : ℝ) < Real.pi / 2 := by
  have hpi : (3.141592 : ℝ) < Real.pi := Real.pi_gt_d6
  have hHi : (pitchHi : ℝ) < 1.570796 := by
    norm_num [pitchHi, piHalf32, lookEpsilon]
  have hLo : (-1.570796 : ℝ) < (pitchLo : ℝ) := by
    norm_num [pitchLo, piHalf32, lookEpsilon]
  refine ⟨?_, by linarith, by linarith⟩
  cases ds with
  | nil => exact absurd rfl h
  | cons d t =>
    exact foldl_look_pitch_mem lookSpeed t (Look lookSpeed rot d)
      (look_pitch_mem lookSpeed rot d)

/-- Witness for C8: a single large upward look from level rotation. -/
theorem look_pitch_clamped_witness :
    ([((0 : ℚ), (1 : ℚ))] ≠ ([] : List (ℚ × ℚ))) ∧
      ((pitchLo ≤ ([((0 : ℚ), (1 : ℚ))].foldl (Look 1) (0, 0)).2 ∧
        ([((0 : ℚ), (1 : ℚ))].foldl (Look 1) (0, 0)).2 ≤ pitchHi) ∧
        -(Real.pi / 2) < (pitchLo : ℝ) ∧ (pitchHi : ℝ) < Real.pi / 2) :=
  ⟨by simp, look_pitch_clamped 1 (0, 0) [(0, 1)] (by simp)⟩

/-- One face branch of the mesher agrees with the specification's
neighbour-transparency condition: emitting on nil-or-transparent neighbour
equals emitting on out-of-bounds-or-transparent neighbour, for a visible
block. -/
lemma face_branch_eq (blocks : BlockData) (info : BlocksInfo) (current : Block)
    (hv : (info current).Visible = true) (x y z bx by1 bz : ℤ) (face : blockFace) :
    (match blocks.At bx by1 bz with
      | none => genVerticesForFace info current x y z face
      | some neighbour =>
        if (info neighbour).Transparent then
          genVerticesForFace info current x y z face
        else []) =
    (if (info current).Visible &&
        (!inChunkBounds bx by1 bz ||
          (info (blocks (flatIndex bx by1 bz))).Transparent) then
      genVerticesForFace info current x y z face
    else []) := by
  cases hb : inChunkBounds bx by1 bz
  · simp [BlockData.At, hb, hv]
  · by_cases ht : (info (blocks (flatIndex bx by1 bz))).Transparent = true <;>
      simp [BlockData.At, hb, hv, ht]

/-- C4: for every block grid and every in-bounds block position, the
mesher's per-block output equals the specification-shaped output — the 6
vertices of a face are emitted iff the block is visible AND the neighbour
in that face's direction is transparent, a neighbour outside the grid
bounds counting as transparent (so chunk-border faces of visible blocks
are always emitted). -/
theorem mesher_face_culling (blocks : BlockData) (info : BlocksInfo)
    (x y z : ℤ) (h : inChunkBounds x y z = true) :
    genVerticesForBlock blocks info x y z
      = genVerticesForBlockSpec blocks info x y z := by
  have hAt : blocks.At x y z = some (blocks (flatIndex x y z)) := by
    simp [BlockData.At, h]
  unfold genVerticesForBlock genVerticesForBlockSpec
  rw [hAt]
  by_cases hv : (info (blocks (flatIndex x y z))).Visible = true
  · simp only [hv, Bool.not_true, Bool.false_eq_true, if_false]
    congr 1
    funext face
    have hfb := face_branch_eq blocks info (blocks (flatIndex x y z)) hv x y z
      (x + face.normal.1) (y + face.normal.2.1) (z + face.normal.2.2) face
    rw [hv] at hfb
    exact hfb
  · simp only [Bool.not_eq_true] at hv
    simp [hv, allFaces]

/-- Witness for C4: an all-stone grid with a catalog where air (ID 0) is
invisible and transparent and stone (ID 1) is visible and opaque, queried
at the corner block (0, 0, 0). -/
theorem mesher_face_culling_witness :
    inChunkBounds 0 0 0 = true ∧
      genVerticesForBlock (fun _ => 1)
          (fun b => if b = 0 then ⟨false, true, ⟨0, 0⟩⟩ else ⟨true, false, ⟨0, 0⟩⟩)
          0 0 0
        = genVerticesForBlockSpec (fun _ => 1)
            (fun b => if b = 0 then ⟨false, true, ⟨0, 0⟩⟩ else ⟨true, false, ⟨0, 0⟩⟩)
            0 0 0 :=
  ⟨by decide,
    mesher_face_culling (fun _ => 1)
      (fun b => if b = 0 then ⟨false, true, ⟨0, 0⟩⟩ else ⟨true, false, ⟨0, 0⟩⟩)
      0 0 0 (by decide)⟩

end Mineral
